import Mathlib

/-!
Shallow embedding of `project/code/variational.py` (Bayes-by-Backprop
variational layers and networks) and proofs of the specification claims.

Tensors are embedded as lists of reals (`Vec`) and lists of rows (`Mat`).
TensorFlow random sampling is embedded by a stream `eps : ℕ → ℝ` of
standard-normal draws together with a cursor: drawing from
`Normal(mu, sigma)` consumes one stream element per tensor entry via the
reparameterisation `mu + sigma * e`.  Python exceptions are embedded with
`Except TfError`.
-/

namespace Variational

noncomputable section

abbrev Vec := List ℝ
abbrev Mat := List Vec

/-- `tf.nn.softplus`. -/
def softplus (x : ℝ) : ℝ := Real.log (1 + Real.exp x)

/-- `tf.contrib.distributions.softplus_inverse`. -/
def softplusInverse (y : ℝ) : ℝ := Real.log (Real.exp y - 1)

/-- Log-density of `tfp.distributions.Normal(loc=mu, scale=sigma)` at `x`. -/
def normalLogPdf (mu sigma x : ℝ) : ℝ :=
  -((x - mu) ^ 2 / (2 * sigma ^ 2)) - Real.log sigma - Real.log (Real.sqrt (2 * Real.pi))

/-- Density of `tfp.distributions.Normal(loc=mu, scale=sigma)` at `x`. -/
def normalPdf (mu sigma x : ℝ) : ℝ :=
  Real.exp (-((x - mu) ^ 2 / (2 * sigma ^ 2))) / (sigma * Real.sqrt (2 * Real.pi))

def dot (u v : Vec) : ℝ := (List.zipWith (· * ·) u v).sum

/-- `tf.matmul` on list-of-rows matrices. -/
def matMul (a b : Mat) : Mat :=
  a.map (fun row => (List.transpose b).map (fun col => dot row col))

/-- Broadcasting `outputs + b` (bias added to every row of the batch). -/
def addBias (m : Mat) (b : Vec) : Mat :=
  m.map (fun row => List.zipWith (· + ·) row b)

def vecSoftplus (v : Vec) : Vec := v.map softplus
def matSoftplus (m : Mat) : Mat := m.map vecSoftplus

def matSum (m : Mat) : ℝ := (m.map List.sum).sum

def numel (m : Mat) : ℕ := (m.map List.length).sum

/-- Draw of `tfp.distributions.Normal(loc=mu, scale=softplus rho).sample()`
for a vector, consuming one stream element per entry; returns the sample and
the advanced cursor. -/
def sampleVec (eps : ℕ → ℝ) : Vec → Vec → ℕ → Vec × ℕ
  | m :: ms, r :: rs, k =>
    let rest := sampleVec eps ms rs (k + 1)
    ((m + softplus r * eps k) :: rest.1, rest.2)
  | _, _, k => ([], k)

/-- Matrix-shaped sample, row by row. -/
def sampleMat (eps : ℕ → ℝ) : Mat → Mat → ℕ → Mat × ℕ
  | m :: ms, r :: rs, k =>
    let row := sampleVec eps m r k
    let rest := sampleMat eps ms rs row.2
    (row.1 :: rest.1, rest.2)
  | _, _, k => ([], k)

/-- `tf.reduce_sum(dist.log_prob(w) - prior.log_prob(w))` for a vector
parameter with posterior `Normal(mu, softplus rho)`. -/
def klVec (mu rho w : Vec) (prior : ℝ → ℝ) : ℝ :=
  (List.zipWith (fun p wi => normalLogPdf p.1 (softplus p.2) wi - prior wi)
    (mu.zip rho) w).sum

/-- The same KL contribution for a matrix parameter. -/
def klMat (mu rho w : Mat) (prior : ℝ → ℝ) : ℝ :=
  (List.zipWith (fun p wrow => klVec p.1 p.2 wrow prior) (mu.zip rho) w).sum

/-- Python exceptions surfaced by the embedded code. -/
inductive TfError where
  /-- `base.IncompatibleShapeError`: rank of the input shape is not 2. -/
  | rankNot2 (rank : ℕ)
  /-- `base.IncompatibleShapeError`: input size unknown at build time. -/
  | unknownLastDim
  /-- `base.IncompatibleShapeError`: input width differs from the stored one. -/
  | widthMismatch (expected got : ℕ)
  /-- `snt.Error` raised by `_ensure_is_connected` before any forward pass. -/
  | notConnected
  /-- Python `AttributeError` (e.g. reading `b_mu` of a bias-free layer). -/
  | attributeError
  deriving Repr, DecidableEq

/-- Whether an error is one of the `IncompatibleShapeError` variants. -/
def TfError.isShape : TfError → Bool
  | .rankNot2 _ | .unknownLastDim | .widthMismatch _ _ => true
  | _ => false

/-- The state a `VarLinear` holds once its first forward pass has run:
the four parameter variables and the stored one-sample KL estimate. -/
structure BuiltParams where
  wMu : Mat
  wRho : Mat
  bMu : Vec
  bRho : Vec
  kl : ℝ

/-- `VarLinear`: `built = none` until `_build` has completed once. -/
structure VarLinear where
  outputSize : ℕ
  useBias : Bool
  inputShape : Option (List (Option ℕ))
  built : Option BuiltParams

/-- A fresh `VarLinear(output_size, prior, use_bias)`. -/
def VarLinear.init (outputSize : ℕ) (useBias : Bool := true) : VarLinear :=
  { outputSize := outputSize, useBias := useBias, inputShape := none, built := none }

/-- `mu_init = glorot_uniform()` is random; we embed the initializer as a
given function of the index.  `rho_init = constant(-3)`. -/
def initMat (f : ℕ → ℕ → ℝ) (r c : ℕ) : Mat :=
  (List.range r).map (fun i => (List.range c).map (fun j => f i j))

def constMat (x : ℝ) (r c : ℕ) : Mat :=
  (List.range r).map (fun _ => (List.range c).map (fun _ => x))

def initVec (f : ℕ → ℝ) (n : ℕ) : Vec := (List.range n).map f

def constVec (x : ℝ) (n : ℕ) : Vec := (List.range n).map (fun _ => x)

/-- The parameter variables `_build` works with: on the first call
`tf.get_variable` creates them from the initializers, on later calls it
returns the existing variables. -/
def VarLinear.effectiveParams (l : VarLinear) (d : ℕ) (muW : ℕ → ℕ → ℝ) (muB : ℕ → ℝ) :
    Mat × Mat × Vec × Vec :=
  match l.built with
  | some p => (p.wMu, p.wRho, p.bMu, p.bRho)
  | none =>
      (initMat muW d l.outputSize, constMat (-3) d l.outputSize,
       initVec muB l.outputSize, constVec (-3) l.outputSize)

/-- The part of `VarLinear._build` after the shape checks (parameter
creation, sampling, KL accumulation and the affine output). -/
def VarLinear.buildBody (l : VarLinear) (prior : ℝ → ℝ) (ishape : List (Option ℕ)) (d : ℕ)
    (inputs : Mat) (muW : ℕ → ℕ → ℝ) (muB : ℕ → ℝ) (eps : ℕ → ℝ) (k : ℕ) :
    Except TfError (Mat × VarLinear × ℕ) :=
  let ps := l.effectiveParams d muW muB
  let wMu := ps.1
  let wRho := ps.2.1
  let bMu := ps.2.2.1
  let bRho := ps.2.2.2
  let ws := sampleMat eps wMu wRho k
  let w := ws.1
  let klW := klMat wMu wRho w prior
  let out0 := matMul inputs w
  if l.useBias then
    let bs := sampleVec eps bMu bRho ws.2
    let b := bs.1
    let kl := klW + klVec bMu bRho b prior
    .ok (addBias out0 b,
         { l with inputShape := some ishape,
                  built := some ⟨wMu, wRho, bMu, bRho, kl⟩ },
         bs.2)
  else
    .ok (out0,
         { l with inputShape := some ishape,
                  built := some ⟨wMu, wRho, bMu, bRho, klW⟩ },
         ws.2)

/-- `VarLinear._build(inputs)`.  `ishape` is the static shape
`inputs.get_shape().as_list()` (entries may be unknown, i.e. `none`);
`inputs` is the numeric batch; `muW`/`muB` stand for the values produced by
the random Glorot initializer; `eps`/`k` is the standard-normal stream with
its cursor.  Returns the output batch, the updated layer and the new
cursor. -/
def VarLinear.build (l : VarLinear) (prior : ℝ → ℝ)
    (ishape : List (Option ℕ)) (inputs : Mat)
    (muW : ℕ → ℕ → ℝ) (muB : ℕ → ℝ) (eps : ℕ → ℝ) (k : ℕ) :
    Except TfError (Mat × VarLinear × ℕ) :=
  if ishape.length ≠ 2 then
    .error (.rankNot2 ishape.length)
  else
    match ishape.get? 1 with
    | none | some none => .error .unknownLastDim
    | some (some d) =>
      match l.inputShape with
      | some st =>
        match st.get? 1 with
        | some (some d0) =>
          if d ≠ d0 then .error (.widthMismatch d0 d) else
            VarLinear.buildBody l prior ishape d inputs muW muB eps k
        | _ => VarLinear.buildBody l prior ishape d inputs muW muB eps k
      | none => VarLinear.buildBody l prior ishape d inputs muW muB eps k

/-- `VarLinear.kl_divergence` (property; `_ensure_is_connected` first). -/
def VarLinear.kl_divergence (l : VarLinear) : Except TfError ℝ :=
  match l.built with
  | none => .error .notConnected
  | some p => .ok p.kl

/-- `VarLinear.w_mu` (property). -/
def VarLinear.w_mu (l : VarLinear) : Except TfError Mat :=
  match l.built with
  | none => .error .notConnected
  | some p => .ok p.wMu

/-- `VarLinear.w_rho` (property). -/
def VarLinear.w_rho (l : VarLinear) : Except TfError Mat :=
  match l.built with
  | none => .error .notConnected
  | some p => .ok p.wRho

/-- `VarLinear.w_sigma = tf.nn.softplus(self._w_rho)` (property). -/
def VarLinear.w_sigma (l : VarLinear) : Except TfError Mat :=
  match l.built with
  | none => .error .notConnected
  | some p => .ok (matSoftplus p.wRho)

/-- `VarLinear.b_mu` (property; the attribute only exists when the layer
uses a bias). -/
def VarLinear.b_mu (l : VarLinear) : Except TfError Vec :=
  match l.built with
  | none => .error .notConnected
  | some p => if l.useBias then .ok p.bMu else .error .attributeError

/-- `VarLinear.b_rho` (property). -/
def VarLinear.b_rho (l : VarLinear) : Except TfError Vec :=
  match l.built with
  | none => .error .notConnected
  | some p => if l.useBias then .ok p.bRho else .error .attributeError

/-- `VarLinear.b_sigma = tf.nn.softplus(self._b_rho)` (property). -/
def VarLinear.b_sigma (l : VarLinear) : Except TfError Vec :=
  match l.built with
  | none => .error .notConnected
  | some p => if l.useBias then .ok (vecSoftplus p.bRho) else .error .attributeError

/-- One entry of the pruning update of `VarLinear.prune_below_snr`:
`snr = 10 * tf.math.log(|mu| / sigma)` (`tf.math.log` is the natural
logarithm), the keep mask is the strict comparison `snr > t`, the new mean
is `mu * mask` and the new raw scale is `softplus_inverse(sigma * mask)`. -/
def pruneEntry (t mu rho : ℝ) : ℝ × ℝ :=
  let sigma := softplus rho
  let mask : ℝ := if 10 * Real.log (|mu| / sigma) > t then 1 else 0
  (mu * mask, softplusInverse (sigma * mask))

/-- Elementwise pruning of a vector parameter, returning the new means and
new raw scales. -/
def pruneVecPair (t : ℝ) (mu rho : Vec) : Vec × Vec :=
  let ps := List.zipWith (fun m r => pruneEntry t m r) mu rho
  (ps.map Prod.fst, ps.map Prod.snd)

/-- Elementwise pruning of a matrix parameter. -/
def pruneMatPair (t : ℝ) (mu rho : Mat) : Mat × Mat :=
  let ps := List.zipWith (fun m r => pruneVecPair t m r) mu rho
  (ps.map Prod.fst, ps.map Prod.snd)

/-- `VarLinear.prune_below_snr(snr)` (the `verbose` printing is ignored). -/
def VarLinear.prune_below_snr (l : VarLinear) (t : ℝ) : Except TfError VarLinear :=
  match l.built with
  | none => .error .notConnected
  | some p =>
    let w := pruneMatPair t p.wMu p.wRho
    let pw : BuiltParams := { p with wMu := w.1, wRho := w.2 }
    if l.useBias then
      let b := pruneVecPair t p.bMu p.bRho
      .ok { l with built := some { pw with bMu := b.1, bRho := b.2 } }
    else
      .ok { l with built := some pw }

/-- One entry of the pruning update as the specification words it:
`snr = 10 * log10(|mu| / sigma)` (base-10 logarithm, decibels). -/
def specPruneEntry (t mu rho : ℝ) : ℝ × ℝ :=
  let sigma := softplus rho
  let mask : ℝ := if 10 * (Real.log (|mu| / sigma) / Real.log 10) > t then 1 else 0
  (mu * mask, softplusInverse (sigma * mask))

def specPruneVecPair (t : ℝ) (mu rho : Vec) : Vec × Vec :=
  let ps := List.zipWith (fun m r => specPruneEntry t m r) mu rho
  (ps.map Prod.fst, ps.map Prod.snd)

def specPruneMatPair (t : ℝ) (mu rho : Mat) : Mat × Mat :=
  let ps := List.zipWith (fun m r => specPruneVecPair t m r) mu rho
  (ps.map Prod.fst, ps.map Prod.snd)

/-- `prune_below_snr` carried out with the specification's base-10 SNR
formula, for comparison with the source's version. -/
def spec_prune_below_snr (l : VarLinear) (t : ℝ) : Except TfError VarLinear :=
  match l.built with
  | none => .error .notConnected
  | some p =>
    let w := specPruneMatPair t p.wMu p.wRho
    let pw : BuiltParams := { p with wMu := w.1, wRho := w.2 }
    if l.useBias then
      let b := specPruneVecPair t p.bMu p.bRho
      .ok { l with built := some { pw with bMu := b.1, bRho := b.2 } }
    else
      .ok { l with built := some pw }

/-- `VarEstimator`: the abstract network superclass.  `layers` is
`self._layers` (empty until `_build` has run) and `connected` the sonnet
connected flag set by a completed forward pass. -/
structure VarEstimator where
  layers : List VarLinear
  connected : Bool
  prior : ℝ → ℝ

/-- A freshly constructed network (`self._layers = []`, not connected). -/
def VarEstimator.initNet (prior : ℝ → ℝ) : VarEstimator :=
  { layers := [], connected := false, prior := prior }

/-- A Python list comprehension `[f(layer) for layer in layers]` over
fallible accessors: evaluates left to right, propagating the first
exception. -/
def listComp {α β : Type} (f : α → Except TfError β) : List α → Except TfError (List β)
  | [] => .ok []
  | a :: as => (f a).bind (fun b => (listComp f as).map (fun bs => b :: bs))

/-- `VarEstimator.kl_divergence`:
`sum([layer.kl_divergence for layer in self._layers])`. -/
def VarEstimator.kl_divergence (n : VarEstimator) : Except TfError ℝ :=
  if n.connected then
    (listComp VarLinear.kl_divergence n.layers).map List.sum
  else .error .notConnected

/-- `VarEstimator.mu_vector`: the flattened weight means of every layer in
layer order, followed by the flattened bias means of every layer. -/
def VarEstimator.mu_vector (n : VarEstimator) : Except TfError Vec :=
  if n.connected then
    (listComp VarLinear.w_mu n.layers).bind (fun ws =>
      (listComp VarLinear.b_mu n.layers).map (fun bs =>
        (ws.map List.flatten).flatten ++ bs.flatten))
  else .error .notConnected

/-- `VarEstimator.sigma_vector`, in the same order as `mu_vector`. -/
def VarEstimator.sigma_vector (n : VarEstimator) : Except TfError Vec :=
  if n.connected then
    (listComp VarLinear.w_sigma n.layers).bind (fun ws =>
      (listComp VarLinear.b_sigma n.layers).map (fun bs =>
        (ws.map List.flatten).flatten ++ bs.flatten))
  else .error .notConnected

/-- `VarEstimator.prune_below_snr`: prunes every layer. -/
def VarEstimator.prune_below_snr (n : VarEstimator) (t : ℝ) : Except TfError VarEstimator :=
  if n.connected then
    (listComp (fun l => VarLinear.prune_below_snr l t) n.layers).map
      (fun ls => { n with layers := ls })
  else .error .notConnected

/-- Elementwise draw of `Normal(loc=mu, scale=sigma).sample()` from the
standard-normal stream (with `sigma` given directly, not through softplus). -/
def normalSampleVec (eps : ℕ → ℝ) : Vec → Vec → ℕ → Vec × ℕ
  | m :: ms, s :: ss, k =>
    let rest := normalSampleVec eps ms ss (k + 1)
    ((m + s * eps k) :: rest.1, rest.2)
  | _, _, k => ([], k)

/-- `VarEstimator.sample_posterior()`:
`Normal(loc=mu_vector, scale=sigma_vector).sample()`. -/
def VarEstimator.sample_posterior (n : VarEstimator) (eps : ℕ → ℝ) (k : ℕ) :
    Except TfError (Vec × ℕ) :=
  n.mu_vector.bind (fun mv =>
    n.sigma_vector.map (fun sv => normalSampleVec eps mv sv k))

/-- `tf.nn.relu`, elementwise on a batch. -/
def matRelu (m : Mat) : Mat := m.map (fun row => row.map (fun x => max x 0))

def column (m : Mat) (j : ℕ) : Vec := m.map (fun row => row.getD j 0)

def isZeroVec (v : Vec) : Bool := v.all (fun x => decide (x = 0))

def outWidth (m : Mat) : ℕ := (m.headD []).length

def selectIdx (idx : List ℕ) (v : Vec) : Vec := idx.map (fun i => v.getD i 0)

def selectRows (idx : List ℕ) (m : Mat) : Mat := idx.map (fun i => m.getD i [])

def selectCols (idx : List ℕ) (m : Mat) : Mat := m.map (selectIdx idx)

/-- Modelled from the spec: `eliminate_dead_neurons` lives in
`compression.py`, which is not among the provided sources; only its call
site in `VarEstimator.compress` is.  Following spec section 4.6: a hidden
neuron is eliminated only when it is dead in both adjacent layers' views
(its incoming weight column and its outgoing weight row are zero), the
retained `input_indices` are the input positions some surviving weight row
still depends on, output-layer width is preserved, and the result is the
retained index list together with the trimmed parameter tensors. -/
def eliminate_dead_neurons (wMus wSigmas : List Mat) (bMus bSigmas : List Vec)
    (_acts : List (ℝ → ℝ)) :
    List ℕ × List Mat × List Mat × List Vec × List Vec :=
  let L := wMus.length
  let alive : ℕ → List ℕ := fun k =>
    if k + 1 < L then
      (List.range (outWidth (wMus.getD k []))).filter
        (fun j => ¬ (isZeroVec (column (wMus.getD k []) j)
                     && isZeroVec ((wMus.getD (k + 1) []).getD j [])))
    else List.range (outWidth (wMus.getD k []))
  let inputIdx := (List.range (wMus.getD 0 []).length).filter
    (fun i => ¬ isZeroVec ((wMus.getD 0 []).getD i []))
  let rowIdx : ℕ → List ℕ := fun k => if k = 0 then inputIdx else alive (k - 1)
  let trimW : List Mat → List Mat := fun ms =>
    (List.range L).map (fun k => selectCols (alive k) (selectRows (rowIdx k) (ms.getD k [])))
  let trimB : List Vec → List Vec := fun bs =>
    (List.range L).map (fun k => selectIdx (alive k) (bs.getD k []))
  (inputIdx, trimW wMus, trimW wSigmas, trimB bMus, trimB bSigmas)

/-- `ReducedVarMNIST`: the reduced network built by `compress`, holding the
compression data (`input_indices` and the trimmed parameter tensors). -/
structure ReducedVarMNIST where
  input_indices : List ℕ
  w_mus : List Mat
  w_sigmas : List Mat
  b_mus : List Vec
  b_sigmas : List Vec
  prior : ℝ → ℝ

/-- The standalone compression-result record the specification describes as
the second component of `compress`'s return value. -/
structure CompressionResult where
  input_indices : List ℕ
  w_mus : List Mat
  w_sigmas : List Mat
  b_mus : List Vec
  b_sigmas : List Vec

/-- The shape of the Python value returned by `VarEstimator.compress`:
either a single reduced-network object, or a 2-tuple of a reduced network
and a separate compression result (the shape the specification claims). -/
inductive CompressReturn where
  | single (m : ReducedVarMNIST)
  | tupled (m : ReducedVarMNIST) (c : CompressionResult)

/-- `VarEstimator.compress()`: reads every layer's parameter tensors, calls
`eliminate_dead_neurons`, and returns a `ReducedVarMNIST` built from its
output.  The first component of the returned pair is the state of the
original network after the call (the method performs reads only). -/
def VarEstimator.compress (n : VarEstimator) :
    Except TfError (VarEstimator × CompressReturn) :=
  (listComp VarLinear.w_mu n.layers).bind (fun wms =>
    (listComp VarLinear.w_sigma n.layers).bind (fun wss =>
      (listComp VarLinear.b_mu n.layers).bind (fun bms =>
        (listComp VarLinear.b_sigma n.layers).map (fun bss =>
          let full := eliminate_dead_neurons wms wss bms bss
            [fun x => max x 0, fun x => max x 0, fun x => x]
          (n, .single { input_indices := full.1, w_mus := full.2.1,
                        w_sigmas := full.2.2.1, b_mus := full.2.2.2.1,
                        b_sigmas := full.2.2.2.2, prior := n.prior })))))

/-- `ReducedVarMNIST.get_unused_input_mask()`:
`mask = np.zeros((28*28,)); mask[self._input_indices] = 1;
mask.reshape((28, 28))`. -/
def ReducedVarMNIST.get_unused_input_mask (r : ReducedVarMNIST) : Mat :=
  (List.range 28).map (fun i => (List.range 28).map (fun j =>
    if 28 * i + j ∈ r.input_indices then (1 : ℝ) else 0))

/-- The mask as the specification describes it: value 1 exactly at the
original input positions that compression discarded. -/
def spec_unused_input_mask (r : ReducedVarMNIST) : Mat :=
  (List.range 28).map (fun i => (List.range 28).map (fun j =>
    if 28 * i + j ∈ r.input_indices then (0 : ℝ) else 1))

/-- `create_gaussian_prior(params)`:
`Normal(loc=params["mu"], scale=tf.exp(-params["sigma"])).log_prob`. -/
def create_gaussian_prior (mu sigma : ℝ) : ℝ → ℝ :=
  fun x => normalLogPdf mu (Real.exp (-sigma)) x

/-- `create_mixture_prior(params)`: the log-probability of the tfp
`Mixture` of `Normal(0, exp(-sigma1))` and `Normal(0, exp(-sigma2))` with
categorical weights `[mix_prop, 1 - mix_prop]`. -/
def create_mixture_prior (mixProp s1 s2 : ℝ) : ℝ → ℝ :=
  fun x => Real.log (mixProp * normalPdf 0 (Real.exp (-s1)) x
                     + (1 - mixProp) * normalPdf 0 (Real.exp (-s2)) x)

/-- The Gaussian prior's log-density as the specification words it: the
`sigma` hyperparameter is itself the standard deviation. -/
def specGaussianLogProb (mu sigma x : ℝ) : ℝ := normalLogPdf mu sigma x

/-- The mixture prior's density as the specification words it: the `sigma`
hyperparameters are themselves the component standard deviations. -/
def specMixtureDensity (mixProp s1 s2 x : ℝ) : ℝ :=
  mixProp * normalPdf 0 s1 x + (1 - mixProp) * normalPdf 0 s2 x

/-- `VarMNIST._build(inputs)`: three fresh `VarLinear`s (two hidden layers
of `units` outputs with ReLU in between, an output layer of width 10),
`self._layers` set to the three connected layers, and the connected flag
raised.  `inputs` is taken post-`BatchFlatten`, i.e. already rank 2;
`muW i` / `muB i` are the Glorot initializer draws of layer `i`. -/
def varMNISTBuild (units : ℕ) (n : VarEstimator) (ishape : List (Option ℕ))
    (inputs : Mat) (muW : ℕ → ℕ → ℕ → ℝ) (muB : ℕ → ℕ → ℝ)
    (eps : ℕ → ℝ) (k : ℕ) : Except TfError (Mat × VarEstimator × ℕ) := do
  let r1 ← (VarLinear.init units).build n.prior ishape inputs (muW 0) (muB 0) eps k
  let a1 := matRelu r1.1
  let r2 ← (VarLinear.init units).build n.prior [ishape.headD none, some units]
    a1 (muW 1) (muB 1) eps r1.2.2
  let a2 := matRelu r2.1
  let r3 ← (VarLinear.init 10).build n.prior [ishape.headD none, some units]
    a2 (muW 2) (muB 2) eps r2.2.2
  return (r3.1, { n with layers := [r1.2.1, r2.2.1, r3.2.1], connected := true },
          r3.2.2)

/-!  Concrete instances used by the witnesses and counterexamples. -/

def priorZero : ℝ → ℝ := fun _ => 0

/-- A small post-forward parameter state. -/
def demoParams : BuiltParams := ⟨[[1]], [[0]], [2], [0], 5⟩

/-- A layer that has completed a forward pass on width-1 input. -/
def demoLayer : VarLinear :=
  { outputSize := 1, useBias := true, inputShape := some [some 1, some 1],
    built := some demoParams }

/-- A one-layer connected network around `demoLayer`. -/
def demoNet : VarEstimator :=
  { layers := [demoLayer], connected := true, prior := priorZero }

/-- A layer whose forward pass bound it to input width 5. -/
def width5Layer : VarLinear :=
  { outputSize := 1, useBias := true, inputShape := some [none, some 5],
    built := some demoParams }

/-- A built bias-free layer whose single weight has posterior mean `e` and
posterior scale 1, so its SNR is 10 with the natural logarithm but
`10 / ln 10 < 5` with the base-10 logarithm. -/
def snrLayer : VarLinear :=
  { outputSize := 1, useBias := false, inputShape := some [none, some 1],
    built := some ⟨[[Real.exp 1]], [[softplusInverse 1]], [], [], 0⟩ }

/-- First entry of the weight-mean matrix of a pruning result. -/
def firstWMuOf (r : Except TfError VarLinear) : ℝ :=
  match r with
  | .ok l =>
    match l.built with
    | some p => (p.wMu.getD 0 []).getD 0 0
    | none => 0
  | .error _ => 0

/-- Entry `(i, j)` of a mask matrix. -/
def maskEntry (m : Mat) (i j : ℕ) : ℝ := (m.getD i []).getD j 0

/-- A reduced network that retained exactly original input position 0. -/
def keepZeroReduced : ReducedVarMNIST := ⟨[0], [], [], [], [], priorZero⟩

/-- The value `w_mu` returns on a built layer. -/
def VarLinear.wMuVal (l : VarLinear) : Mat :=
  match l.built with
  | some p => p.wMu
  | none => []

/-- The value `w_sigma` returns on a built layer. -/
def VarLinear.wSigmaVal (l : VarLinear) : Mat :=
  match l.built with
  | some p => matSoftplus p.wRho
  | none => []

/-- The value `b_mu` returns on a built layer with a bias. -/
def VarLinear.bMuVal (l : VarLinear) : Vec :=
  match l.built with
  | some p => p.bMu
  | none => []

/-- The value `b_sigma` returns on a built layer with a bias. -/
def VarLinear.bSigmaVal (l : VarLinear) : Vec :=
  match l.built with
  | some p => vecSoftplus p.bRho
  | none => []

/-- The weight parameters of a built layer as flattened
(mean, scale) pairs, in the row-major order `mu_vector` uses. -/
def VarLinear.wPairs (l : VarLinear) : List (ℝ × ℝ) :=
  match l.built with
  | some p =>
    (List.zipWith (fun mr sr => mr.zip sr) p.wMu (matSoftplus p.wRho)).flatten
  | none => []

/-- The bias parameters of a built layer as (mean, scale) pairs. -/
def VarLinear.bPairs (l : VarLinear) : List (ℝ × ℝ) :=
  match l.built with
  | some p => p.bMu.zip (vecSoftplus p.bRho)
  | none => []

/-- All network parameters as (mean, scale) pairs, in the order shared by
`mu_vector` and `sigma_vector`: every layer's flattened weights in layer
order, then every layer's biases in layer order. -/
def VarEstimator.paramPairs (n : VarEstimator) : List (ℝ × ℝ) :=
  (n.layers.map VarLinear.wPairs).flatten ++ (n.layers.map VarLinear.bPairs).flatten

/-- The `eliminate_dead_neurons` output `compress` consumes. -/
def VarEstimator.elimData (n : VarEstimator) :
    List ℕ × List Mat × List Mat × List Vec × List Vec :=
  eliminate_dead_neurons (n.layers.map VarLinear.wMuVal)
    (n.layers.map VarLinear.wSigmaVal) (n.layers.map VarLinear.bMuVal)
    (n.layers.map VarLinear.bSigmaVal)
    [fun x => max x 0, fun x => max x 0, fun x => x]

end

/-! ## Supporting lemmas -/

theorem one_add_exp_pos (x : ℝ) : 0 < 1 + Real.exp x := by positivity

theorem softplus_pos (x : ℝ) : 0 < softplus x := by
  unfold softplus
  exact Real.log_pos (by nlinarith [Real.exp_pos x])

theorem softplusInverse_softplus (x : ℝ) : softplusInverse (softplus x) = x := by
  unfold softplusInverse softplus
  rw [Real.exp_log (one_add_exp_pos x), add_sub_cancel_left, Real.log_exp]

theorem softplusInverse_zero : softplusInverse 0 = 0 := by
  unfold softplusInverse
  rw [Real.exp_zero, sub_self, Real.log_zero]

theorem pruneEntry_keep {t mu rho : ℝ} (h : 10 * Real.log (|mu| / softplus rho) > t) :
    pruneEntry t mu rho = (mu, rho) := by
  simp only [pruneEntry, if_pos h, mul_one, softplusInverse_softplus]

theorem pruneEntry_drop {t mu rho : ℝ} (h : ¬ 10 * Real.log (|mu| / softplus rho) > t) :
    pruneEntry t mu rho = (0, 0) := by
  simp only [pruneEntry, if_neg h, mul_zero, softplusInverse_zero]

theorem pruneEntry_idem (t mu rho : ℝ) :
    pruneEntry t (pruneEntry t mu rho).1 (pruneEntry t mu rho).2 = pruneEntry t mu rho := by
  by_cases h : 10 * Real.log (|mu| / softplus rho) > t
  · rw [pruneEntry_keep h]
    exact pruneEntry_keep h
  · rw [pruneEntry_drop h]
    show pruneEntry t 0 0 = (0, 0)
    by_cases h0 : 10 * Real.log (|(0 : ℝ)| / softplus 0) > t
    · simp only [pruneEntry, if_pos h0, zero_mul, mul_one, softplusInverse_softplus]
    · exact pruneEntry_drop h0

theorem zipWith_pair_idem {A B : Type} (f : A → B → A × B)
    (hf : ∀ a b, f (f a b).1 (f a b).2 = f a b) :
    ∀ (as : List A) (bs : List B),
      List.zipWith f ((List.zipWith f as bs).map Prod.fst)
        ((List.zipWith f as bs).map Prod.snd) = List.zipWith f as bs := by
  intro as
  induction as with
  | nil => intro bs; simp
  | cons a as ih =>
    intro bs
    cases bs with
    | nil => simp
    | cons b bs =>
      simp only [List.zipWith_cons_cons, List.map_cons]
      rw [ih bs, hf a b]

theorem pruneVecPair_idem (t : ℝ) (mu rho : Vec) :
    pruneVecPair t (pruneVecPair t mu rho).1 (pruneVecPair t mu rho).2 =
      pruneVecPair t mu rho := by
  simp only [pruneVecPair]
  rw [zipWith_pair_idem _ (fun a b => pruneEntry_idem t a b)]

theorem pruneMatPair_idem (t : ℝ) (mu rho : Mat) :
    pruneMatPair t (pruneMatPair t mu rho).1 (pruneMatPair t mu rho).2 =
      pruneMatPair t mu rho := by
  simp only [pruneMatPair]
  rw [zipWith_pair_idem _ (fun a b => pruneVecPair_idem t a b)]

/-! ## Claim theorems -/

/-- C4: for every `VariationalLayer` and every threshold `t`, applying
`prune_below_snr t` twice in a row yields exactly the same
`(mean, raw_scale)` parameters as applying it once; in particular an entry
zeroed by the first prune stays zero under the second. -/
theorem varLinear_prune_below_snr_idempotent (l : VarLinear) (t : ℝ) :
    (l.prune_below_snr t).bind (fun l2 => l2.prune_below_snr t) =
      l.prune_below_snr t := by
  cases hb : l.built with
  | none => simp [VarLinear.prune_below_snr, hb, Except.bind]
  | some p =>
    by_cases hu : l.useBias
    · simp [VarLinear.prune_below_snr, hb, hu, Except.bind, pruneMatPair_idem,
        pruneVecPair_idem]
    · simp [VarLinear.prune_below_snr, hb, hu, Except.bind, pruneMatPair_idem]

theorem listComp_kl_divergence (ls : List VarLinear)
    (h : ∀ l ∈ ls, l.built.isSome = true) :
    ∃ ks : List ℝ, listComp VarLinear.kl_divergence ls = .ok ks ∧
      List.Forall₂ (fun (l : VarLinear) (kv : ℝ) => l.kl_divergence = .ok kv) ls ks := by
  induction ls with
  | nil => exact ⟨[], rfl, List.Forall₂.nil⟩
  | cons l ls ih =>
    obtain ⟨p, hp⟩ := Option.isSome_iff_exists.mp (h l (by simp))
    obtain ⟨ks, hks, hfa⟩ := ih (fun m hm => h m (by simp [hm]))
    have hl : l.kl_divergence = .ok p.kl := by
      simp [VarLinear.kl_divergence, hp]
    refine ⟨p.kl :: ks, ?_, List.Forall₂.cons hl hfa⟩
    simp [listComp, hl, hks, Except.bind, Except.map]

/-- C2: for every `VariationalNetwork` whose layers have all completed a
forward pass, the network-level `kl_divergence` equals the sum of the
`kl_divergence` values of exactly the layers composing the network. -/
theorem varEstimator_kl_divergence_is_layer_sum (n : VarEstimator)
    (hc : n.connected = true)
    (hall : ∀ l ∈ n.layers, l.built.isSome = true) :
    ∃ ks : List ℝ,
      List.Forall₂ (fun (l : VarLinear) (kv : ℝ) => l.kl_divergence = .ok kv)
        n.layers ks ∧
      n.kl_divergence = .ok ks.sum := by
  obtain ⟨ks, hks, hfa⟩ := listComp_kl_divergence n.layers hall
  exact ⟨ks, hfa, by simp [VarEstimator.kl_divergence, hc, hks, Except.map]⟩

/-- Witness for C2 on a concrete one-layer connected network. -/
theorem varEstimator_kl_divergence_is_layer_sum_witness :
    ∃ ks : List ℝ,
      List.Forall₂ (fun (l : VarLinear) (kv : ℝ) => l.kl_divergence = .ok kv)
        demoNet.layers ks ∧
      demoNet.kl_divergence = .ok ks.sum :=
  varEstimator_kl_divergence_is_layer_sum demoNet rfl
    (by intro l hl; simp only [demoNet] at hl; simp at hl; subst hl; rfl)

theorem prune_ok_of_built {l : VarLinear} {p : BuiltParams} (t : ℝ)
    (hp : l.built = some p) : ∃ l2, l.prune_below_snr t = .ok l2 := by
  by_cases hu : l.useBias
  · refine ⟨{ l with built := some ⟨(pruneMatPair t p.wMu p.wRho).1,
      (pruneMatPair t p.wMu p.wRho).2, (pruneVecPair t p.bMu p.bRho).1,
      (pruneVecPair t p.bMu p.bRho).2, p.kl⟩ }, ?_⟩
    simp [VarLinear.prune_below_snr, hp, hu]
  · refine ⟨{ l with built := some ⟨(pruneMatPair t p.wMu p.wRho).1,
      (pruneMatPair t p.wMu p.wRho).2, p.bMu, p.bRho, p.kl⟩ }, ?_⟩
    simp [VarLinear.prune_below_snr, hp, hu]

theorem listComp_prune_ok (t : ℝ) (ls : List VarLinear)
    (h : ∀ l ∈ ls, l.built.isSome = true) :
    ∃ rs, listComp (fun l => VarLinear.prune_below_snr l t) ls = .ok rs := by
  induction ls with
  | nil => exact ⟨[], rfl⟩
  | cons l ls ih =>
    obtain ⟨p, hp⟩ := Option.isSome_iff_exists.mp (h l (by simp))
    obtain ⟨l2, hl2⟩ := prune_ok_of_built t hp
    obtain ⟨rs, hrs⟩ := ih (fun m hm => h m (by simp [hm]))
    refine ⟨l2 :: rs, ?_⟩
    simp [listComp, hl2, hrs, Except.bind, Except.map]

/-- C5 (amended): reading `kl_divergence`, `w_mu`, `w_sigma`, `b_mu`,
`b_sigma` or calling `prune_below_snr` on a layer that has never completed
a forward pass, or reading `kl_divergence` / calling `prune_below_snr` on a
network that has never completed one, raises the not-yet-built error; after
a completed forward pass the same accesses succeed.  `compress`, however,
performs no connectivity check: on a never-built network (whose layer list
is still empty) it returns a reduced network instead of raising. -/
theorem not_built_accesses_error_built_succeed
    (l lb : VarLinear) (pb : BuiltParams) (n nb : VarEstimator) (t : ℝ)
    (pr : ℝ → ℝ)
    (hl : l.built = none) (hn : n.connected = false)
    (hlb : lb.built = some pb) (hbias : lb.useBias = true)
    (hnb : nb.connected = true)
    (hall : ∀ m ∈ nb.layers, m.built.isSome = true) :
    l.kl_divergence = .error .notConnected ∧
    l.w_mu = .error .notConnected ∧
    l.w_sigma = .error .notConnected ∧
    l.b_mu = .error .notConnected ∧
    l.b_sigma = .error .notConnected ∧
    l.prune_below_snr t = .error .notConnected ∧
    n.kl_divergence = .error .notConnected ∧
    n.prune_below_snr t = .error .notConnected ∧
    (VarEstimator.initNet pr).compress =
      .ok (VarEstimator.initNet pr, .single ⟨[], [], [], [], [], pr⟩) ∧
    lb.kl_divergence = .ok pb.kl ∧
    lb.w_mu = .ok pb.wMu ∧
    lb.w_sigma = .ok (matSoftplus pb.wRho) ∧
    lb.b_mu = .ok pb.bMu ∧
    lb.b_sigma = .ok (vecSoftplus pb.bRho) ∧
    (∃ l2, lb.prune_below_snr t = .ok l2) ∧
    (∃ v, nb.kl_divergence = .ok v) ∧
    (∃ n2, nb.prune_below_snr t = .ok n2) := by
  obtain ⟨ks, hks, _⟩ := listComp_kl_divergence nb.layers hall
  obtain ⟨rs, hrs⟩ := listComp_prune_ok t nb.layers hall
  refine ⟨?_, ?_, ?_, ?_, ?_, ?_, ?_, ?_, rfl, ?_, ?_, ?_, ?_, ?_,
    prune_ok_of_built t hlb, ⟨ks.sum, ?_⟩, ⟨{ nb with layers := rs }, ?_⟩⟩
  · simp [VarLinear.kl_divergence, hl]
  · simp [VarLinear.w_mu, hl]
  · simp [VarLinear.w_sigma, hl]
  · simp [VarLinear.b_mu, hl]
  · simp [VarLinear.b_sigma, hl]
  · simp [VarLinear.prune_below_snr, hl]
  · simp [VarEstimator.kl_divergence, hn]
  · simp [VarEstimator.prune_below_snr, hn]
  · simp [VarLinear.kl_divergence, hlb]
  · simp [VarLinear.w_mu, hlb]
  · simp [VarLinear.w_sigma, hlb]
  · simp [VarLinear.b_mu, hlb, hbias]
  · simp [VarLinear.b_sigma, hlb, hbias]
  · simp [VarEstimator.kl_divergence, hnb, hks, Except.map]
  · simp [VarEstimator.prune_below_snr, hnb, hrs, Except.map]

/-- Witness for C5 on concrete unbuilt and built layers/networks. -/
theorem not_built_accesses_witness :
    (VarLinear.init 1).kl_divergence = .error .notConnected ∧
    (VarLinear.init 1).w_mu = .error .notConnected ∧
    (VarLinear.init 1).w_sigma = .error .notConnected ∧
    (VarLinear.init 1).b_mu = .error .notConnected ∧
    (VarLinear.init 1).b_sigma = .error .notConnected ∧
    (VarLinear.init 1).prune_below_snr 0 = .error .notConnected ∧
    (VarEstimator.initNet priorZero).kl_divergence = .error .notConnected ∧
    (VarEstimator.initNet priorZero).prune_below_snr 0 = .error .notConnected ∧
    (VarEstimator.initNet priorZero).compress =
      .ok (VarEstimator.initNet priorZero, .single ⟨[], [], [], [], [], priorZero⟩) ∧
    demoLayer.kl_divergence = .ok demoParams.kl ∧
    demoLayer.w_mu = .ok demoParams.wMu ∧
    demoLayer.w_sigma = .ok (matSoftplus demoParams.wRho) ∧
    demoLayer.b_mu = .ok demoParams.bMu ∧
    demoLayer.b_sigma = .ok (vecSoftplus demoParams.bRho) ∧
    (∃ l2, demoLayer.prune_below_snr 0 = .ok l2) ∧
    (∃ v, demoNet.kl_divergence = .ok v) ∧
    (∃ n2, demoNet.prune_below_snr 0 = .ok n2) :=
  not_built_accesses_error_built_succeed (VarLinear.init 1) demoLayer demoParams
    (VarEstimator.initNet priorZero) demoNet 0 priorZero rfl rfl rfl rfl rfl
    (by intro m hm; simp only [demoNet] at hm; simp at hm; subst hm; rfl)

/-- Counterexample for C5 as stated: `compress` on a network that has never
completed a forward pass does not raise the not-yet-built error. -/
theorem compress_unbuilt_no_error :
    (VarEstimator.initNet priorZero).compress ≠ .error .notConnected :=
  fun h => Except.noConfusion h

/-- C6: `VarLinear._build` raises the `IncompatibleShapeError` variants:
when the static input shape's rank is not 2, when its last dimension is
unknown, and when its last dimension differs from the width fixed by the
layer's first forward pass. -/
theorem varLinear_build_shape_errors (l : VarLinear) (prior : ℝ → ℝ)
    (ishape : List (Option ℕ)) (inputs : Mat) (muW : ℕ → ℕ → ℝ) (muB : ℕ → ℝ)
    (eps : ℕ → ℝ) (k : ℕ) :
    (ishape.length ≠ 2 →
      l.build prior ishape inputs muW muB eps k = .error (.rankNot2 ishape.length)) ∧
    (ishape.length = 2 → ishape.get? 1 = some none →
      l.build prior ishape inputs muW muB eps k = .error .unknownLastDim) ∧
    (∀ st d0 d, ishape.length = 2 → ishape.get? 1 = some (some d) →
      l.inputShape = some st → st.get? 1 = some (some d0) → d ≠ d0 →
      l.build prior ishape inputs muW muB eps k = .error (.widthMismatch d0 d)) := by
  refine ⟨fun h => ?_, fun h1 h2 => ?_, fun st d0 d h1 h2 h3 h4 h5 => ?_⟩
  · simp [VarLinear.build, h]
  · unfold VarLinear.build
    rw [if_neg (by simp [h1]), h2]
  · unfold VarLinear.build
    rw [if_neg (by simp [h1]), h2, h3]
    rw [List.get?_eq_getElem?] at h4
    simp [h4, h5]

/-- Witness for C6: a `[4, 6]` batch fed to a layer bound to width 5, a
rank-3 shape, and an unknown last dimension. -/
theorem varLinear_build_shape_errors_witness :
    width5Layer.build priorZero [some 4, some 6] [[1, 1, 1, 1, 1, 1]]
      (fun _ _ => 0) (fun _ => 0) (fun _ => 0) 0 = .error (.widthMismatch 5 6) ∧
    width5Layer.build priorZero [some 4, some 6, some 1] [[1]]
      (fun _ _ => 0) (fun _ => 0) (fun _ => 0) 0 = .error (.rankNot2 3) ∧
    width5Layer.build priorZero [some 4, none] [[1]]
      (fun _ _ => 0) (fun _ => 0) (fun _ => 0) 0 = .error .unknownLastDim :=
  ⟨(varLinear_build_shape_errors width5Layer priorZero [some 4, some 6]
      [[1, 1, 1, 1, 1, 1]] (fun _ _ => 0) (fun _ => 0) (fun _ => 0) 0).2.2
      [none, some 5] 5 6 rfl rfl rfl rfl (by decide),
   (varLinear_build_shape_errors width5Layer priorZero [some 4, some 6, some 1]
      [[1]] (fun _ _ => 0) (fun _ => 0) (fun _ => 0) 0).1 (by decide),
   (varLinear_build_shape_errors width5Layer priorZero [some 4, none]
      [[1]] (fun _ _ => 0) (fun _ => 0) (fun _ => 0) 0).2.1 rfl rfl⟩

theorem sampleVec_cursor (eps : ℕ → ℝ) (mu rho : Vec) (k : ℕ)
    (h : mu.length = rho.length) :
    (sampleVec eps mu rho k).2 = k + mu.length := by
  induction mu generalizing rho k with
  | nil => cases rho <;> simp [sampleVec]
  | cons m ms ih =>
    cases rho with
    | nil => simp at h
    | cons r rs =>
      simp only [sampleVec]
      rw [ih rs (k + 1) (by simpa using h)]
      simp [Nat.add_comm, Nat.add_left_comm]

theorem sampleMat_cursor (eps : ℕ → ℝ) (mu rho : Mat) (k : ℕ)
    (h : mu.map List.length = rho.map List.length) :
    (sampleMat eps mu rho k).2 = k + numel mu := by
  induction mu generalizing rho k with
  | nil => cases rho <;> simp [sampleMat, numel]
  | cons m ms ih =>
    cases rho with
    | nil => simp at h
    | cons r rs =>
      simp only [List.map_cons, List.cons.injEq] at h
      simp only [sampleMat]
      rw [ih rs _ h.2, sampleVec_cursor eps m r k h.1]
      simp [numel, Nat.add_comm, Nat.add_left_comm, Nat.add_assoc]

/-- C1: a forward pass of `VarLinear` draws exactly one weight sample `w`
and one bias sample `b` (the stream cursor advances by exactly one draw per
parameter entry), the returned output is `x @ w + b` for those samples, and
the stored `kl_divergence` is
`sum(posterior.log_prob(w) - prior.log_prob(w))` plus the analogous bias
term evaluated at the very same `w` and `b` — never at a fresh sample. -/
theorem varLinear_forward_single_shared_sample (l : VarLinear) (prior : ℝ → ℝ)
    (ishape : List (Option ℕ)) (inputs : Mat) (muW : ℕ → ℕ → ℝ) (muB : ℕ → ℝ)
    (eps : ℕ → ℝ) (k d : ℕ)
    (hlen : ishape.length = 2) (hd : ishape.get? 1 = some (some d))
    (hcompat : ∀ st, l.inputShape = some st → st.get? 1 = some (some d))
    (hbias : l.useBias = true)
    (hw : (l.effectiveParams d muW muB).1.map List.length =
          (l.effectiveParams d muW muB).2.1.map List.length)
    (hb2 : (l.effectiveParams d muW muB).2.2.1.length =
           (l.effectiveParams d muW muB).2.2.2.length) :
    l.build prior ishape inputs muW muB eps k =
      .ok (addBias
             (matMul inputs (sampleMat eps (l.effectiveParams d muW muB).1
               (l.effectiveParams d muW muB).2.1 k).1)
             (sampleVec eps (l.effectiveParams d muW muB).2.2.1
               (l.effectiveParams d muW muB).2.2.2
               (sampleMat eps (l.effectiveParams d muW muB).1
                 (l.effectiveParams d muW muB).2.1 k).2).1,
           { l with inputShape := some ishape,
                    built := some ⟨(l.effectiveParams d muW muB).1,
                      (l.effectiveParams d muW muB).2.1,
                      (l.effectiveParams d muW muB).2.2.1,
                      (l.effectiveParams d muW muB).2.2.2,
                      klMat (l.effectiveParams d muW muB).1
                        (l.effectiveParams d muW muB).2.1
                        (sampleMat eps (l.effectiveParams d muW muB).1
                          (l.effectiveParams d muW muB).2.1 k).1 prior +
                      klVec (l.effectiveParams d muW muB).2.2.1
                        (l.effectiveParams d muW muB).2.2.2
                        (sampleVec eps (l.effectiveParams d muW muB).2.2.1
                          (l.effectiveParams d muW muB).2.2.2
                          (sampleMat eps (l.effectiveParams d muW muB).1
                            (l.effectiveParams d muW muB).2.1 k).2).1 prior⟩ },
           (sampleVec eps (l.effectiveParams d muW muB).2.2.1
             (l.effectiveParams d muW muB).2.2.2
             (sampleMat eps (l.effectiveParams d muW muB).1
               (l.effectiveParams d muW muB).2.1 k).2).2) ∧
    (sampleVec eps (l.effectiveParams d muW muB).2.2.1
      (l.effectiveParams d muW muB).2.2.2
      (sampleMat eps (l.effectiveParams d muW muB).1
        (l.effectiveParams d muW muB).2.1 k).2).2 =
      k + numel (l.effectiveParams d muW muB).1 +
        (l.effectiveParams d muW muB).2.2.1.length := by
  have hd2 := hd
  rw [List.get?_eq_getElem?] at hd2
  have hbuild : l.build prior ishape inputs muW muB eps k =
      VarLinear.buildBody l prior ishape d inputs muW muB eps k := by
    cases hst : l.inputShape with
    | none => simp [VarLinear.build, hlen, hd2, hst]
    | some st =>
      have h4 := hcompat st hst
      rw [List.get?_eq_getElem?] at h4
      simp [VarLinear.build, hlen, hd2, hst, h4]
  constructor
  · rw [hbuild]
    simp only [VarLinear.buildBody, hbias, if_true]
  · rw [sampleVec_cursor _ _ _ _ hb2, sampleMat_cursor _ _ _ _ hw]

/-- Witness for C1 on a concrete fresh layer and width-1 input. -/
theorem varLinear_forward_single_shared_sample_witness :
    (VarLinear.init 1).build priorZero [some 1, some 1] [[1]]
        (fun _ _ => 0) (fun _ => 0) (fun _ => 0) 0 =
      .ok (addBias
             (matMul [[1]] (sampleMat (fun _ => 0)
               ((VarLinear.init 1).effectiveParams 1 (fun _ _ => 0) (fun _ => 0)).1
               ((VarLinear.init 1).effectiveParams 1 (fun _ _ => 0) (fun _ => 0)).2.1 0).1)
             (sampleVec (fun _ => 0)
               ((VarLinear.init 1).effectiveParams 1 (fun _ _ => 0) (fun _ => 0)).2.2.1
               ((VarLinear.init 1).effectiveParams 1 (fun _ _ => 0) (fun _ => 0)).2.2.2
               (sampleMat (fun _ => 0)
                 ((VarLinear.init 1).effectiveParams 1 (fun _ _ => 0) (fun _ => 0)).1
                 ((VarLinear.init 1).effectiveParams 1 (fun _ _ => 0) (fun _ => 0)).2.1 0).2).1,
           { (VarLinear.init 1) with
             inputShape := some [some 1, some 1],
             built := some ⟨((VarLinear.init 1).effectiveParams 1 (fun _ _ => 0) (fun _ => 0)).1,
               ((VarLinear.init 1).effectiveParams 1 (fun _ _ => 0) (fun _ => 0)).2.1,
               ((VarLinear.init 1).effectiveParams 1 (fun _ _ => 0) (fun _ => 0)).2.2.1,
               ((VarLinear.init 1).effectiveParams 1 (fun _ _ => 0) (fun _ => 0)).2.2.2,
               klMat ((VarLinear.init 1).effectiveParams 1 (fun _ _ => 0) (fun _ => 0)).1
                 ((VarLinear.init 1).effectiveParams 1 (fun _ _ => 0) (fun _ => 0)).2.1
                 (sampleMat (fun _ => 0)
                   ((VarLinear.init 1).effectiveParams 1 (fun _ _ => 0) (fun _ => 0)).1
                   ((VarLinear.init 1).effectiveParams 1 (fun _ _ => 0) (fun _ => 0)).2.1 0).1
                 priorZero +
               klVec ((VarLinear.init 1).effectiveParams 1 (fun _ _ => 0) (fun _ => 0)).2.2.1
                 ((VarLinear.init 1).effectiveParams 1 (fun _ _ => 0) (fun _ => 0)).2.2.2
                 (sampleVec (fun _ => 0)
                   ((VarLinear.init 1).effectiveParams 1 (fun _ _ => 0) (fun _ => 0)).2.2.1
                   ((VarLinear.init 1).effectiveParams 1 (fun _ _ => 0) (fun _ => 0)).2.2.2
                   (sampleMat (fun _ => 0)
                     ((VarLinear.init 1).effectiveParams 1 (fun _ _ => 0) (fun _ => 0)).1
                     ((VarLinear.init 1).effectiveParams 1 (fun _ _ => 0) (fun _ => 0)).2.1 0).2).1
                 priorZero⟩ },
           (sampleVec (fun _ => 0)
             ((VarLinear.init 1).effectiveParams 1 (fun _ _ => 0) (fun _ => 0)).2.2.1
             ((VarLinear.init 1).effectiveParams 1 (fun _ _ => 0) (fun _ => 0)).2.2.2
             (sampleMat (fun _ => 0)
               ((VarLinear.init 1).effectiveParams 1 (fun _ _ => 0) (fun _ => 0)).1
               ((VarLinear.init 1).effectiveParams 1 (fun _ _ => 0) (fun _ => 0)).2.1 0).2).2) ∧
    (sampleVec (fun _ => 0)
      ((VarLinear.init 1).effectiveParams 1 (fun _ _ => 0) (fun _ => 0)).2.2.1
      ((VarLinear.init 1).effectiveParams 1 (fun _ _ => 0) (fun _ => 0)).2.2.2
      (sampleMat (fun _ => 0)
        ((VarLinear.init 1).effectiveParams 1 (fun _ _ => 0) (fun _ => 0)).1
        ((VarLinear.init 1).effectiveParams 1 (fun _ _ => 0) (fun _ => 0)).2.1 0).2).2 =
      0 + numel ((VarLinear.init 1).effectiveParams 1 (fun _ _ => 0) (fun _ => 0)).1 +
        ((VarLinear.init 1).effectiveParams 1 (fun _ _ => 0) (fun _ => 0)).2.2.1.length :=
  varLinear_forward_single_shared_sample (VarLinear.init 1) priorZero
    [some 1, some 1] [[1]] (fun _ _ => 0) (fun _ => 0) (fun _ => 0) 0 1
    rfl rfl (fun _ h => nomatch h) rfl rfl rfl

theorem softplus_softplusInverse {y : ℝ} (hy : 0 < y) :
    softplus (softplusInverse y) = y := by
  unfold softplus softplusInverse
  have h1 : (0 : ℝ) < Real.exp y - 1 := by
    have h2 := Real.add_one_lt_exp (ne_of_gt hy)
    linarith
  rw [Real.exp_log h1, show (1 : ℝ) + (Real.exp y - 1) = Real.exp y by ring,
    Real.log_exp]

theorem two_le_log_ten : (2 : ℝ) ≤ Real.log 10 := by
  rw [Real.le_log_iff_exp_le (by norm_num)]
  have h9 := Real.exp_one_lt_d9
  have hp := Real.exp_pos 1
  calc Real.exp 2 = Real.exp 1 * Real.exp 1 := by
        rw [← Real.exp_add]; norm_num
    _ ≤ 10 := by nlinarith

/-- Counterexample for C3: on a built layer whose single weight has
posterior mean `e` and scale 1, pruning with threshold 5 keeps the weight
(the source's SNR `10 * ln(e) = 10` exceeds 5) although the
specification's decibel formula `10 * log10(e) ≈ 4.34` would prune it. -/
theorem prune_snr_natural_log_counterexample :
    firstWMuOf (snrLayer.prune_below_snr 5) = Real.exp 1 ∧
    firstWMuOf (spec_prune_below_snr snrLayer 5) = 0 ∧
    Real.exp 1 ≠ 0 := by
  have hsigma : softplus (softplusInverse 1) = 1 := softplus_softplusInverse one_pos
  have habs : |Real.exp 1| = Real.exp 1 := abs_of_pos (Real.exp_pos 1)
  have hcond : 10 * Real.log (|Real.exp 1| / softplus (softplusInverse 1)) > 5 := by
    rw [hsigma, habs, div_one, Real.log_exp]; norm_num
  have hentry : pruneEntry 5 (Real.exp 1) (softplusInverse 1) =
      (Real.exp 1, softplusInverse 1) := pruneEntry_keep hcond
  have hlogpos : (0 : ℝ) < Real.log 10 := lt_of_lt_of_le (by norm_num) two_le_log_ten
  have hcondS : ¬ 10 * (Real.log (|Real.exp 1| / softplus (softplusInverse 1)) /
      Real.log 10) > 5 := by
    rw [hsigma, habs, div_one, Real.log_exp]
    push_neg
    rw [mul_one_div, div_le_iff₀ hlogpos]
    nlinarith [two_le_log_ten]
  have hspec : specPruneEntry 5 (Real.exp 1) (softplusInverse 1) =
      (0, softplusInverse 0) := by
    simp only [specPruneEntry, if_neg hcondS, mul_zero]
  refine ⟨?_, ?_, Real.exp_ne_zero 1⟩
  · simp [VarLinear.prune_below_snr, snrLayer, pruneMatPair, pruneVecPair,
      hentry, firstWMuOf]
  · simp [spec_prune_below_snr, snrLayer, specPruneMatPair, specPruneVecPair,
      hspec, firstWMuOf]

theorem getD_map_of_lt {α β : Type} (f : α → β) (l : List α) (i : ℕ)
    (hi : i < l.length) (da : α) (db : β) :
    (l.map f).getD i db = f (l.getD i da) := by
  induction l generalizing i with
  | nil => simp at hi
  | cons a as ih =>
    cases i with
    | zero => rfl
    | succ i => exact ih i (Nat.lt_of_succ_lt_succ hi)

theorem getD_zipWith_of_lt {α β γ : Type} (f : α → β → γ) (a : List α)
    (b : List β) (i : ℕ) (ha : i < a.length) (hb : i < b.length)
    (da : α) (db : β) (dg : γ) :
    (List.zipWith f a b).getD i dg = f (a.getD i da) (b.getD i db) := by
  induction a generalizing b i with
  | nil => simp at ha
  | cons x xs ih =>
    cases b with
    | nil => simp at hb
    | cons y ys =>
      cases i with
      | zero => rfl
      | succ i =>
        exact ih ys i (Nat.lt_of_succ_lt_succ ha) (Nat.lt_of_succ_lt_succ hb)

theorem pruneVecPair_entry (t : ℝ) (v r : Vec) (j : ℕ)
    (hj : j < v.length) (hjr : j < r.length) :
    ((pruneVecPair t v r).1.getD j 0 =
      (pruneEntry t (v.getD j 0) (r.getD j 0)).1) ∧
    ((pruneVecPair t v r).2.getD j 0 =
      (pruneEntry t (v.getD j 0) (r.getD j 0)).2) := by
  have hlen : j < (List.zipWith (fun m x => pruneEntry t m x) v r).length := by
    rw [List.length_zipWith]; omega
  constructor
  · rw [pruneVecPair, getD_map_of_lt _ _ _ hlen (0, 0) 0,
      getD_zipWith_of_lt _ _ _ _ hj hjr 0 0 (0, 0)]
  · rw [pruneVecPair, getD_map_of_lt _ _ _ hlen (0, 0) 0,
      getD_zipWith_of_lt _ _ _ _ hj hjr 0 0 (0, 0)]

theorem pruneMatPair_entry (t : ℝ) (mu rho : Mat) (i j : ℕ)
    (hi : i < mu.length) (hir : i < rho.length)
    (hj : j < (mu.getD i []).length) (hjr : j < (rho.getD i []).length) :
    (((pruneMatPair t mu rho).1.getD i []).getD j 0 =
      (pruneEntry t ((mu.getD i []).getD j 0) ((rho.getD i []).getD j 0)).1) ∧
    (((pruneMatPair t mu rho).2.getD i []).getD j 0 =
      (pruneEntry t ((mu.getD i []).getD j 0) ((rho.getD i []).getD j 0)).2) := by
  have hlen : i < (List.zipWith (fun m x => pruneVecPair t m x) mu rho).length := by
    rw [List.length_zipWith]; omega
  have h1 : (pruneMatPair t mu rho).1.getD i [] =
      (pruneVecPair t (mu.getD i []) (rho.getD i [])).1 := by
    rw [pruneMatPair, getD_map_of_lt _ _ _ hlen ([], []) [],
      getD_zipWith_of_lt _ _ _ _ hi hir [] [] ([], [])]
  have h2 : (pruneMatPair t mu rho).2.getD i [] =
      (pruneVecPair t (mu.getD i []) (rho.getD i [])).2 := by
    rw [pruneMatPair, getD_map_of_lt _ _ _ hlen ([], []) [],
      getD_zipWith_of_lt _ _ _ _ hi hir [] [] ([], [])]
  rw [h1, h2]
  exact pruneVecPair_entry t _ _ j hj hjr

/-- C3 (amended): for every built layer and threshold `t`,
`prune_below_snr t` computes the elementwise SNR with the natural
logarithm, `snr = 10 * ln(|mean| / scale)` (not base 10 as the
specification says), keeps entries by the strict comparison `snr > t`
(entries equal to the threshold are pruned), sets the mean to
`mean * mask`, and re-derives the raw scale as the softplus-inverse of the
masked scale; the same holds for biases when the layer uses a bias. -/
theorem varLinear_prune_formula (l : VarLinear) (p : BuiltParams) (t : ℝ)
    (i j jb : ℕ) (hb : l.built = some p) (hbias : l.useBias = true)
    (hi : i < p.wMu.length) (hir : i < p.wRho.length)
    (hj : j < (p.wMu.getD i []).length) (hjr : j < (p.wRho.getD i []).length)
    (hjb : jb < p.bMu.length) (hjbr : jb < p.bRho.length) :
    ∃ p2 : BuiltParams, l.prune_below_snr t = .ok { l with built := some p2 } ∧
      p2.kl = p.kl ∧
      ((p2.wMu.getD i []).getD j 0 =
        ((p.wMu.getD i []).getD j 0) *
          (if 10 * Real.log (|(p.wMu.getD i []).getD j 0| /
              softplus ((p.wRho.getD i []).getD j 0)) > t then 1 else 0)) ∧
      ((p2.wRho.getD i []).getD j 0 =
        softplusInverse (softplus ((p.wRho.getD i []).getD j 0) *
          (if 10 * Real.log (|(p.wMu.getD i []).getD j 0| /
              softplus ((p.wRho.getD i []).getD j 0)) > t then 1 else 0))) ∧
      (p2.bMu.getD jb 0 =
        (p.bMu.getD jb 0) *
          (if 10 * Real.log (|p.bMu.getD jb 0| /
              softplus (p.bRho.getD jb 0)) > t then 1 else 0)) ∧
      (p2.bRho.getD jb 0 =
        softplusInverse (softplus (p.bRho.getD jb 0) *
          (if 10 * Real.log (|p.bMu.getD jb 0| /
              softplus (p.bRho.getD jb 0)) > t then 1 else 0))) := by
  refine ⟨⟨(pruneMatPair t p.wMu p.wRho).1, (pruneMatPair t p.wMu p.wRho).2,
    (pruneVecPair t p.bMu p.bRho).1, (pruneVecPair t p.bMu p.bRho).2, p.kl⟩,
    ?_, rfl, ?_, ?_, ?_, ?_⟩
  · simp [VarLinear.prune_below_snr, hb, hbias]
  · exact (pruneMatPair_entry t p.wMu p.wRho i j hi hir hj hjr).1
  · exact (pruneMatPair_entry t p.wMu p.wRho i j hi hir hj hjr).2
  · exact (pruneVecPair_entry t p.bMu p.bRho jb hjb hjbr).1
  · exact (pruneVecPair_entry t p.bMu p.bRho jb hjb hjbr).2

/-- Witness for C3 on the concrete built layer `demoLayer`. -/
theorem varLinear_prune_formula_witness :
    ∃ p2 : BuiltParams,
      demoLayer.prune_below_snr 0 = .ok { demoLayer with built := some p2 } ∧
      p2.kl = demoParams.kl ∧
      ((p2.wMu.getD 0 []).getD 0 0 =
        ((demoParams.wMu.getD 0 []).getD 0 0) *
          (if 10 * Real.log (|(demoParams.wMu.getD 0 []).getD 0 0| /
              softplus ((demoParams.wRho.getD 0 []).getD 0 0)) > (0:ℝ) then 1 else 0)) ∧
      ((p2.wRho.getD 0 []).getD 0 0 =
        softplusInverse (softplus ((demoParams.wRho.getD 0 []).getD 0 0) *
          (if 10 * Real.log (|(demoParams.wMu.getD 0 []).getD 0 0| /
              softplus ((demoParams.wRho.getD 0 []).getD 0 0)) > (0:ℝ) then 1 else 0))) ∧
      (p2.bMu.getD 0 0 =
        (demoParams.bMu.getD 0 0) *
          (if 10 * Real.log (|demoParams.bMu.getD 0 0| /
              softplus (demoParams.bRho.getD 0 0)) > (0:ℝ) then 1 else 0)) ∧
      (p2.bRho.getD 0 0 =
        softplusInverse (softplus (demoParams.bRho.getD 0 0) *
          (if 10 * Real.log (|demoParams.bMu.getD 0 0| /
              softplus (demoParams.bRho.getD 0 0)) > (0:ℝ) then 1 else 0))) :=
  varLinear_prune_formula demoLayer demoParams 0 0 0 0 rfl rfl
    (by decide) (by decide) (by decide) (by decide) (by decide) (by decide)

theorem sqrt_two_pi_pos : 0 < Real.sqrt (2 * Real.pi) :=
  Real.sqrt_pos.mpr (by positivity)

theorem normalPdf_pos (mu sigma x : ℝ) (hs : 0 < sigma) :
    0 < normalPdf mu sigma x := by
  unfold normalPdf
  positivity

theorem normalLogPdf_eq_log_pdf (mu sigma x : ℝ) (hs : 0 < sigma) :
    normalLogPdf mu sigma x = Real.log (normalPdf mu sigma x) := by
  unfold normalLogPdf normalPdf
  rw [Real.log_div (Real.exp_ne_zero _)
      (mul_ne_zero (ne_of_gt hs) (ne_of_gt sqrt_two_pi_pos)),
    Real.log_exp, Real.log_mul (ne_of_gt hs) (ne_of_gt sqrt_two_pi_pos)]
  ring

/-- C7 (amended): the Gaussian prior built from `{mu, sigma}` has
`log_prob` equal to the log-density of a normal distribution with mean
`mu` and standard deviation `exp(-sigma)` (the hyperparameter is the
negative log of the standard deviation, not the standard deviation
itself), and the scale-mixture prior built from `{mix_prop, sigma1,
sigma2}` has density
`mix_prop * N(0, exp(-sigma1)) + (1 - mix_prop) * N(0, exp(-sigma2))`. -/
theorem prior_scales_are_exp_neg_sigma (mu sigma x p s1 s2 : ℝ)
    (hp0 : 0 ≤ p) (hp1 : p ≤ 1) :
    create_gaussian_prior mu sigma x =
      Real.log (normalPdf mu (Real.exp (-sigma)) x) ∧
    Real.exp (create_mixture_prior p s1 s2 x) =
      p * normalPdf 0 (Real.exp (-s1)) x +
        (1 - p) * normalPdf 0 (Real.exp (-s2)) x := by
  constructor
  · exact normalLogPdf_eq_log_pdf mu (Real.exp (-sigma)) x (Real.exp_pos _)
  · have h1 := normalPdf_pos 0 (Real.exp (-s1)) x (Real.exp_pos _)
    have h2 := normalPdf_pos 0 (Real.exp (-s2)) x (Real.exp_pos _)
    have hpos : 0 < p * normalPdf 0 (Real.exp (-s1)) x +
        (1 - p) * normalPdf 0 (Real.exp (-s2)) x := by
      rcases eq_or_lt_of_le hp0 with h | h
      · rw [← h]; simpa using h2
      · exact add_pos_of_pos_of_nonneg (mul_pos h h1)
          (mul_nonneg (by linarith) (le_of_lt h2))
    exact Real.exp_log hpos

/-- Witness for C7 at `mu = 0`, `sigma = 1`, `p = 1/2`, `s1 = 1`,
`s2 = 2`, `x = 0`. -/
theorem prior_scales_are_exp_neg_sigma_witness :
    create_gaussian_prior 0 1 0 =
      Real.log (normalPdf 0 (Real.exp (-1)) 0) ∧
    Real.exp (create_mixture_prior (1/2) 1 2 0) =
      (1/2) * normalPdf 0 (Real.exp (-1)) 0 +
        (1 - 1/2) * normalPdf 0 (Real.exp (-2)) 0 :=
  prior_scales_are_exp_neg_sigma 0 1 0 (1/2) 1 2 (by norm_num) (by norm_num)

/-- Counterexample for C7: with hyperparameters `mu = 0`, `sigma = 1` the
Gaussian prior's log-density differs from that of `N(0, 1)`, and the
mixture prior built from `mix_prop = 1/2`, `sigma1 = sigma2 = 1` has a
density at 0 different from the spec's
`1/2 * N(0,1) + 1/2 * N(0,1)` — the `sigma` hyperparameters are not
themselves the standard deviations. -/
theorem prior_sigma_not_std_counterexample :
    create_gaussian_prior 0 1 0 ≠ specGaussianLogProb 0 1 0 ∧
    Real.exp (create_mixture_prior (1/2) 1 1 0) ≠ specMixtureDensity (1/2) 1 1 0 := by
  have hsq := sqrt_two_pi_pos
  have hf : normalPdf 0 (Real.exp (-1)) 0 =
      1 / (Real.exp (-1) * Real.sqrt (2 * Real.pi)) := by
    unfold normalPdf
    norm_num
  have hg : normalPdf 0 1 0 = 1 / Real.sqrt (2 * Real.pi) := by
    unfold normalPdf
    norm_num
  constructor
  · have h1 : create_gaussian_prior 0 1 0 =
        1 - Real.log (Real.sqrt (2 * Real.pi)) := by
      unfold create_gaussian_prior normalLogPdf
      rw [Real.log_exp]
      norm_num
    have h2 : specGaussianLogProb 0 1 0 = - Real.log (Real.sqrt (2 * Real.pi)) := by
      unfold specGaussianLogProb normalLogPdf
      rw [Real.log_one]
      norm_num
    rw [h1, h2]
    intro h
    linarith
  · have hm : Real.exp (create_mixture_prior (1/2) 1 1 0) =
        normalPdf 0 (Real.exp (-1)) 0 := by
      unfold create_mixture_prior
      rw [show (1/2 : ℝ) * normalPdf 0 (Real.exp (-1)) 0 +
          (1 - 1/2) * normalPdf 0 (Real.exp (-1)) 0 =
          normalPdf 0 (Real.exp (-1)) 0 by ring]
      exact Real.exp_log (normalPdf_pos 0 (Real.exp (-1)) 0 (Real.exp_pos _))
    have hs : specMixtureDensity (1/2) 1 1 0 = normalPdf 0 1 0 := by
      unfold specMixtureDensity
      ring
    rw [hm, hs, hf, hg]
    intro h
    have hene : Real.exp (-1) ≠ 0 := Real.exp_ne_zero _
    have hsne : Real.sqrt (2 * Real.pi) ≠ 0 := ne_of_gt hsq
    field_simp at h

theorem listComp_ok_of_pointwise {α β : Type} (f : α → Except TfError β)
    (g : α → β) (ls : List α) (h : ∀ l ∈ ls, f l = .ok (g l)) :
    listComp f ls = .ok (ls.map g) := by
  induction ls with
  | nil => rfl
  | cons a as ih =>
    simp [listComp, h a (by simp), ih (fun m hm => h m (by simp [hm])),
      Except.bind, Except.map]

theorem w_mu_val {l : VarLinear} (hb : l.built.isSome = true) :
    l.w_mu = .ok l.wMuVal := by
  obtain ⟨p, hp⟩ := Option.isSome_iff_exists.mp hb
  simp [VarLinear.w_mu, VarLinear.wMuVal, hp]

theorem w_sigma_val {l : VarLinear} (hb : l.built.isSome = true) :
    l.w_sigma = .ok l.wSigmaVal := by
  obtain ⟨p, hp⟩ := Option.isSome_iff_exists.mp hb
  simp [VarLinear.w_sigma, VarLinear.wSigmaVal, hp]

theorem b_mu_val {l : VarLinear} (hb : l.built.isSome = true)
    (hu : l.useBias = true) : l.b_mu = .ok l.bMuVal := by
  obtain ⟨p, hp⟩ := Option.isSome_iff_exists.mp hb
  simp [VarLinear.b_mu, VarLinear.bMuVal, hp, hu]

theorem b_sigma_val {l : VarLinear} (hb : l.built.isSome = true)
    (hu : l.useBias = true) : l.b_sigma = .ok l.bSigmaVal := by
  obtain ⟨p, hp⟩ := Option.isSome_iff_exists.mp hb
  simp [VarLinear.b_sigma, VarLinear.bSigmaVal, hp, hu]

theorem compress_never_tupled (n : VarEstimator) :
    ∀ n2 m c, n.compress ≠ .ok (n2, .tupled m c) := by
  intro n2 m c h
  unfold VarEstimator.compress at h
  cases h1 : listComp VarLinear.w_mu n.layers with
  | error e => rw [h1] at h; simp [Except.bind] at h
  | ok wms =>
    rw [h1] at h
    simp only [Except.bind] at h
    cases h2 : listComp VarLinear.w_sigma n.layers with
    | error e => rw [h2] at h; simp [Except.bind] at h
    | ok wss =>
      rw [h2] at h
      simp only [Except.bind] at h
      cases h3 : listComp VarLinear.b_mu n.layers with
      | error e => rw [h3] at h; simp [Except.bind] at h
      | ok bms =>
        rw [h3] at h
        simp only [Except.bind] at h
        cases h4 : listComp VarLinear.b_sigma n.layers with
        | error e => rw [h4] at h; simp [Except.map] at h
        | ok bss =>
          rw [h4] at h
          simp [Except.map] at h

/-- C8 (amended): `compress()` on a network whose layers are built returns
a single reduced-network object — not a 2-tuple — carrying the compression
data (`input_indices` and the trimmed per-layer tensors produced by
`eliminate_dead_neurons`) together with the shared prior, and it leaves
the original network's state unchanged (the first component of the
embedded state-passing result is the unmodified input network). -/
theorem compress_single_no_mutation (n : VarEstimator)
    (hall : ∀ m ∈ n.layers, m.built.isSome = true)
    (hbias : ∀ m ∈ n.layers, m.useBias = true) :
    n.compress = .ok (n, .single ⟨n.elimData.1, n.elimData.2.1,
      n.elimData.2.2.1, n.elimData.2.2.2.1, n.elimData.2.2.2.2, n.prior⟩) := by
  have h1 := listComp_ok_of_pointwise VarLinear.w_mu VarLinear.wMuVal n.layers
    (fun m hm => w_mu_val (hall m hm))
  have h2 := listComp_ok_of_pointwise VarLinear.w_sigma VarLinear.wSigmaVal n.layers
    (fun m hm => w_sigma_val (hall m hm))
  have h3 := listComp_ok_of_pointwise VarLinear.b_mu VarLinear.bMuVal n.layers
    (fun m hm => b_mu_val (hall m hm) (hbias m hm))
  have h4 := listComp_ok_of_pointwise VarLinear.b_sigma VarLinear.bSigmaVal n.layers
    (fun m hm => b_sigma_val (hall m hm) (hbias m hm))
  simp [VarEstimator.compress, VarEstimator.elimData, h1, h2, h3, h4,
    Except.bind, Except.map]

/-- Witness for C8 on the concrete built network `demoNet`. -/
theorem compress_single_no_mutation_witness :
    demoNet.compress = .ok (demoNet, .single ⟨demoNet.elimData.1,
      demoNet.elimData.2.1, demoNet.elimData.2.2.1, demoNet.elimData.2.2.2.1,
      demoNet.elimData.2.2.2.2, demoNet.prior⟩) :=
  compress_single_no_mutation demoNet
    (by intro m hm; simp only [demoNet] at hm; simp at hm; subst hm; rfl)
    (by intro m hm; simp only [demoNet] at hm; simp at hm; subst hm; rfl)

/-- Counterexample for C8 as stated: on the concrete built network
`demoNet`, `compress` does not return a 2-tuple of a reduced network and a
separate `CompressionResult`. -/
theorem compress_not_pair_counterexample :
    ¬ ∃ n2 m c, demoNet.compress = .ok (n2, CompressReturn.tupled m c) :=
  fun ⟨n2, m, c, h⟩ => compress_never_tupled demoNet n2 m c h

/-- C9: evaluation of `get_unused_input_mask` at the failing input — a
reduced network that retained exactly original input position 0.  The code
marks the RETAINED position 0 with 1 and the discarded position 1 with 0,
the exact opposite of the specified mask (value 1 at discarded
positions). -/
theorem unused_mask_marks_retained :
    maskEntry keepZeroReduced.get_unused_input_mask 0 0 = 1 ∧
    maskEntry keepZeroReduced.get_unused_input_mask 0 1 = 0 ∧
    maskEntry (spec_unused_input_mask keepZeroReduced) 0 0 = 0 ∧
    maskEntry (spec_unused_input_mask keepZeroReduced) 0 1 = 1 :=
  ⟨rfl, rfl, rfl, rfl⟩

theorem forall2_len_of_map_length {A B : Mat}
    (h : A.map List.length = B.map List.length) :
    List.Forall₂ (fun (a b : Vec) => a.length = b.length) A B := by
  induction A generalizing B with
  | nil =>
    cases B with
    | nil => exact .nil
    | cons b bs => simp at h
  | cons a as ih =>
    cases B with
    | nil => simp at h
    | cons b bs =>
      simp only [List.map_cons, List.cons.injEq] at h
      exact .cons h.1 (ih h.2)

theorem zipWith_zip_map_fst {A B : Mat}
    (h : List.Forall₂ (fun (a b : Vec) => a.length = b.length) A B) :
    (List.zipWith (fun (a b : Vec) => a.zip b) A B).map (List.map Prod.fst) = A := by
  induction h with
  | nil => rfl
  | cons hab _ ih =>
    simp only [List.zipWith_cons_cons, List.map_cons, ih,
      List.map_fst_zip _ _ (le_of_eq hab)]

theorem zipWith_zip_map_snd {A B : Mat}
    (h : List.Forall₂ (fun (a b : Vec) => a.length = b.length) A B) :
    (List.zipWith (fun (a b : Vec) => a.zip b) A B).map (List.map Prod.snd) = B := by
  induction h with
  | nil => rfl
  | cons hab _ ih =>
    simp only [List.zipWith_cons_cons, List.map_cons, ih,
      List.map_snd_zip _ _ (le_of_eq hab.symm)]

theorem matSoftplus_map_length (m : Mat) :
    (matSoftplus m).map List.length = m.map List.length := by
  simp [matSoftplus, vecSoftplus, List.map_map, Function.comp]

theorem wPairs_fst {l : VarLinear} {p : BuiltParams} (hb : l.built = some p)
    (hsh : p.wMu.map List.length = p.wRho.map List.length) :
    l.wPairs.map Prod.fst = l.wMuVal.flatten := by
  have hlen : List.Forall₂ (fun (a b : Vec) => a.length = b.length)
      p.wMu (matSoftplus p.wRho) :=
    forall2_len_of_map_length (by rw [matSoftplus_map_length]; exact hsh)
  simp only [VarLinear.wPairs, VarLinear.wMuVal, hb]
  rw [List.map_flatten, zipWith_zip_map_fst hlen]

theorem wPairs_snd {l : VarLinear} {p : BuiltParams} (hb : l.built = some p)
    (hsh : p.wMu.map List.length = p.wRho.map List.length) :
    l.wPairs.map Prod.snd = l.wSigmaVal.flatten := by
  have hlen : List.Forall₂ (fun (a b : Vec) => a.length = b.length)
      p.wMu (matSoftplus p.wRho) :=
    forall2_len_of_map_length (by rw [matSoftplus_map_length]; exact hsh)
  simp only [VarLinear.wPairs, VarLinear.wSigmaVal, hb]
  rw [List.map_flatten, zipWith_zip_map_snd hlen]

theorem bPairs_fst {l : VarLinear} {p : BuiltParams} (hb : l.built = some p)
    (hlen : p.bMu.length = p.bRho.length) :
    l.bPairs.map Prod.fst = l.bMuVal := by
  simp only [VarLinear.bPairs, VarLinear.bMuVal, hb]
  exact List.map_fst_zip _ _ (by simp [vecSoftplus, hlen])

theorem bPairs_snd {l : VarLinear} {p : BuiltParams} (hb : l.built = some p)
    (hlen : p.bMu.length = p.bRho.length) :
    l.bPairs.map Prod.snd = l.bSigmaVal := by
  simp only [VarLinear.bPairs, VarLinear.bSigmaVal, hb]
  exact List.map_snd_zip _ _ (by simp [vecSoftplus, hlen])

theorem normalSampleVec_getD (eps : ℕ → ℝ) (mu sigma : Vec) (k i : ℕ)
    (hlen : mu.length = sigma.length) (hi : i < mu.length) :
    (normalSampleVec eps mu sigma k).1.getD i 0 =
      mu.getD i 0 + sigma.getD i 0 * eps (k + i) := by
  induction mu generalizing sigma k i with
  | nil => simp at hi
  | cons m ms ih =>
    cases sigma with
    | nil => simp at hlen
    | cons s ss =>
      cases i with
      | zero => simp [normalSampleVec]
      | succ i =>
        simp only [normalSampleVec, List.getD_cons_succ]
        rw [ih ss (k + 1) i (by simpa using hlen) (Nat.lt_of_succ_lt_succ hi)]
        ring_nf

/-- C10: `mu_vector` and `sigma_vector` concatenate in the identical order
(all layers' flattened weights in layer order, then all layers' biases in
layer order), so the i-th entries of the two vectors belong to the same
parameter; consequently `sample_posterior()` draws each parameter from a
normal distribution with that parameter's own mean and own scale
(coordinate i of the joint sample is `mu_i + sigma_i * eps_i`). -/
theorem mu_sigma_vectors_aligned (n : VarEstimator) (eps : ℕ → ℝ) (k : ℕ)
    (hconn : n.connected = true)
    (hall : ∀ m ∈ n.layers, m.built.isSome = true)
    (hbias : ∀ m ∈ n.layers, m.useBias = true)
    (hsh : ∀ m ∈ n.layers, ∀ p, m.built = some p →
      p.wMu.map List.length = p.wRho.map List.length ∧
      p.bMu.length = p.bRho.length) :
    n.mu_vector = .ok (n.paramPairs.map Prod.fst) ∧
    n.sigma_vector = .ok (n.paramPairs.map Prod.snd) ∧
    n.sample_posterior eps k = .ok (normalSampleVec eps
      (n.paramPairs.map Prod.fst) (n.paramPairs.map Prod.snd) k) ∧
    ∀ i, i < n.paramPairs.length →
      (normalSampleVec eps (n.paramPairs.map Prod.fst)
        (n.paramPairs.map Prod.snd) k).1.getD i 0 =
        (n.paramPairs.getD i (0, 0)).1 +
          (n.paramPairs.getD i (0, 0)).2 * eps (k + i) := by
  have h1 := listComp_ok_of_pointwise VarLinear.w_mu VarLinear.wMuVal n.layers
    (fun m hm => w_mu_val (hall m hm))
  have h2 := listComp_ok_of_pointwise VarLinear.w_sigma VarLinear.wSigmaVal n.layers
    (fun m hm => w_sigma_val (hall m hm))
  have h3 := listComp_ok_of_pointwise VarLinear.b_mu VarLinear.bMuVal n.layers
    (fun m hm => b_mu_val (hall m hm) (hbias m hm))
  have h4 := listComp_ok_of_pointwise VarLinear.b_sigma VarLinear.bSigmaVal n.layers
    (fun m hm => b_sigma_val (hall m hm) (hbias m hm))
  have hwf : ∀ m ∈ n.layers, m.wPairs.map Prod.fst = m.wMuVal.flatten := by
    intro m hm
    obtain ⟨p, hp⟩ := Option.isSome_iff_exists.mp (hall m hm)
    exact wPairs_fst hp ((hsh m hm p hp).1)
  have hws : ∀ m ∈ n.layers, m.wPairs.map Prod.snd = m.wSigmaVal.flatten := by
    intro m hm
    obtain ⟨p, hp⟩ := Option.isSome_iff_exists.mp (hall m hm)
    exact wPairs_snd hp ((hsh m hm p hp).1)
  have hbf : ∀ m ∈ n.layers, m.bPairs.map Prod.fst = m.bMuVal := by
    intro m hm
    obtain ⟨p, hp⟩ := Option.isSome_iff_exists.mp (hall m hm)
    exact bPairs_fst hp ((hsh m hm p hp).2)
  have hbs : ∀ m ∈ n.layers, m.bPairs.map Prod.snd = m.bSigmaVal := by
    intro m hm
    obtain ⟨p, hp⟩ := Option.isSome_iff_exists.mp (hall m hm)
    exact bPairs_snd hp ((hsh m hm p hp).2)
  have hmu : n.paramPairs.map Prod.fst =
      ((n.layers.map VarLinear.wMuVal).map List.flatten).flatten ++
        (n.layers.map VarLinear.bMuVal).flatten := by
    simp only [VarEstimator.paramPairs, List.map_append, List.map_flatten,
      List.map_map]
    congr 1
    · congr 1
      exact List.map_congr_left (fun m hm => hwf m hm)
    · congr 1
      exact List.map_congr_left (fun m hm => hbf m hm)
  have hsg : n.paramPairs.map Prod.snd =
      ((n.layers.map VarLinear.wSigmaVal).map List.flatten).flatten ++
        (n.layers.map VarLinear.bSigmaVal).flatten := by
    simp only [VarEstimator.paramPairs, List.map_append, List.map_flatten,
      List.map_map]
    congr 1
    · congr 1
      exact List.map_congr_left (fun m hm => hws m hm)
    · congr 1
      exact List.map_congr_left (fun m hm => hbs m hm)
  have cmu : n.mu_vector = .ok (n.paramPairs.map Prod.fst) := by
    rw [hmu]
    simp [VarEstimator.mu_vector, hconn, h1, h3, Except.bind, Except.map]
  have csg : n.sigma_vector = .ok (n.paramPairs.map Prod.snd) := by
    rw [hsg]
    simp [VarEstimator.sigma_vector, hconn, h2, h4, Except.bind, Except.map]
  refine ⟨cmu, csg, ?_, ?_⟩
  · simp [VarEstimator.sample_posterior, cmu, csg, Except.bind, Except.map]
  · intro i hi
    rw [normalSampleVec_getD eps _ _ k i (by simp) (by simpa using hi),
      getD_map_of_lt Prod.fst _ _ (by simpa using hi) (0, 0) 0,
      getD_map_of_lt Prod.snd _ _ (by simpa using hi) (0, 0) 0]

/-- Witness for C10 on the concrete connected network `demoNet`. -/
theorem mu_sigma_vectors_aligned_witness :
    demoNet.mu_vector = .ok (demoNet.paramPairs.map Prod.fst) ∧
    demoNet.sigma_vector = .ok (demoNet.paramPairs.map Prod.snd) ∧
    demoNet.sample_posterior (fun _ => 0) 0 = .ok (normalSampleVec (fun _ => 0)
      (demoNet.paramPairs.map Prod.fst) (demoNet.paramPairs.map Prod.snd) 0) ∧
    ∀ i, i < demoNet.paramPairs.length →
      (normalSampleVec (fun _ => 0) (demoNet.paramPairs.map Prod.fst)
        (demoNet.paramPairs.map Prod.snd) 0).1.getD i 0 =
        (demoNet.paramPairs.getD i (0, 0)).1 +
          (demoNet.paramPairs.getD i (0, 0)).2 * (fun _ => (0:ℝ)) (0 + i) :=
  mu_sigma_vectors_aligned demoNet (fun _ => 0) 0 rfl
    (by intro m hm; simp only [demoNet] at hm; simp at hm; subst hm; rfl)
    (by intro m hm; simp only [demoNet] at hm; simp at hm; subst hm; rfl)
    (by intro m hm; simp only [demoNet] at hm; simp at hm; subst hm
        intro p hp
        simp only [demoLayer] at hp
        cases hp
        exact ⟨rfl, rfl⟩)

end Variational
